import Mathlib

/-!
Formal model of the maxpolun/audiofile WAVE codec (Go package audiofile),
shallowly embedded in Lean.

Bytes are modelled as Nat values (0..255 in well-formed streams), byte streams
as List Nat, Go uint16/uint32 header fields as Nat with explicit mod-2^16 /
mod-2^32 arithmetic where the Go code truncates, and int16 sample values as
Int with explicit two's-complement wraparound where the Go code overflows.
Fallible operations return Except.  The reader supplied to Load is modelled as
the list of bytes it will yield; the writer supplied to Save is modelled as a
sink with a finite capacity, so that every one of the 14 write error paths of
Save is represented.

The repository contains several revisions of the same Go file.  The primary
definitions below follow src/audiofile.go.  The later revision (part_002 of
the unnamed sources, the one matched by audiofile_test.go) differs only in the
sample codec: its BytesToSigned16 takes (low, high) instead of (high, low),
its Signed16ToBytes returns (low, high) and special-cases an input of -1, and
it implements GetPCM / SetPCM.  Those variants are embedded in namespace Rev2.
-/

/-- Four consecutive bytes, as read into a Go [4]byte field. -/
abbrev Byte4 := Nat × Nat × Nat × Nat

/-- Go struct Waveheader: the 13 canonical WAVE header fields. -/
structure Waveheader where
  ChunkID       : Byte4
  ChunkSize     : Nat
  Format        : Byte4
  Subchunk1ID   : Byte4
  Subchunk1Size : Nat
  AudioFormat   : Nat
  NumChannels   : Nat
  SampleRate    : Nat
  ByteRate      : Nat
  BlockAlign    : Nat
  BitsPerSample : Nat
  Subchunk2ID   : Byte4
  Subchunk2Size : Nat
  deriving DecidableEq

/-- Go struct Wavefile: a header plus the raw payload bytes. -/
structure Wavefile where
  Header : Waveheader
  Data   : List Nat
  deriving DecidableEq

/-- The single error value BadFile (New file is corrupt or not the proper format). -/
inductive LoadErr where
  | BadFile
  deriving DecidableEq

/-- An error surfaced by the output stream during Save (Go io error). -/
inductive IOErr where
  | ioError
  deriving DecidableEq

/-- Decidable equality for Except values, so that concrete runs of the model
can be checked by evaluation. -/
instance instDecEqExcept {ε α : Type} [DecidableEq ε] [DecidableEq α] :
    DecidableEq (Except ε α) := fun x y =>
  match x, y with
  | .ok a, .ok b =>
      if h : a = b then isTrue (by rw [h]) else isFalse (fun hc => h (by injection hc))
  | .error a, .error b =>
      if h : a = b then isTrue (by rw [h]) else isFalse (fun hc => h (by injection hc))
  | .ok _, .error _ => isFalse (fun hc => Except.noConfusion hc)
  | .error _, .ok _ => isFalse (fun hc => Except.noConfusion hc)

/-- Reads a Go [4]byte field: four bytes in stream order (byte arrays are
byte-order independent).  None models a failed binary.Read. -/
def read4 : List Nat → Option (Byte4 × List Nat)
  | a :: b :: c :: d :: rest => some ((a, b, c, d), rest)
  | _ => none

/-- Reads a little-endian uint16, as binary.Read with binary.LittleEndian. -/
def readU16 : List Nat → Option (Nat × List Nat)
  | a :: b :: rest => some (a + 256 * b, rest)
  | _ => none

/-- Reads a little-endian uint32, as binary.Read with binary.LittleEndian. -/
def readU32 : List Nat → Option (Nat × List Nat)
  | a :: b :: c :: d :: rest =>
      some (a + 256 * b + 65536 * c + 16777216 * d, rest)
  | _ => none

/-- Reads exactly n raw bytes (io.ReadFull semantics): fails if the stream
holds fewer than n bytes. -/
def readN (n : Nat) (s : List Nat) : Option (List Nat × List Nat) :=
  if n ≤ s.length then some (s.take n, s.drop n) else none

/-- The payload bytes produced by the final binary.Read of Load into the
freshly allocated Data buffer: on success the n bytes read, and on a failed
read the buffer keeps the all-zero contents of make([]byte, n), because the
error is discarded and binary.Read decodes nothing on a short read. -/
def payloadBytes (n : Nat) (s : List Nat) : List Nat :=
  match readN n s with
  | some (d, _) => d
  | none => List.replicate n 0

/-- Go func validate: the four magic-field checks, in source order, each
returning the shared BadFile value on mismatch. -/
def validate (h : Waveheader) : Except LoadErr Unit :=
  if h.ChunkID ≠ (82, 73, 70, 70) then .error .BadFile
  else if h.Format ≠ (87, 65, 86, 69) then .error .BadFile
  else if h.Subchunk1ID ≠ (102, 109, 116, 32) then .error .BadFile
  else if h.Subchunk2ID ≠ (100, 97, 116, 97) then .error .BadFile
  else .ok ()

/-- Go method Wavefile.Load: 13 field reads, each failure collapsing to
BadFile; then the payload read whose error is ignored; then validate. -/
def Load (s : List Nat) : Except LoadErr Wavefile :=
  match read4 s with
  | none => .error .BadFile
  | some (chunkID, s) =>
  match readU32 s with
  | none => .error .BadFile
  | some (chunkSize, s) =>
  match read4 s with
  | none => .error .BadFile
  | some (format, s) =>
  match read4 s with
  | none => .error .BadFile
  | some (subchunk1ID, s) =>
  match readU32 s with
  | none => .error .BadFile
  | some (subchunk1Size, s) =>
  match readU16 s with
  | none => .error .BadFile
  | some (audioFormat, s) =>
  match readU16 s with
  | none => .error .BadFile
  | some (numChannels, s) =>
  match readU32 s with
  | none => .error .BadFile
  | some (sampleRate, s) =>
  match readU32 s with
  | none => .error .BadFile
  | some (byteRate, s) =>
  match readU16 s with
  | none => .error .BadFile
  | some (blockAlign, s) =>
  match readU16 s with
  | none => .error .BadFile
  | some (bitsPerSample, s) =>
  match read4 s with
  | none => .error .BadFile
  | some (subchunk2ID, s) =>
  match readU32 s with
  | none => .error .BadFile
  | some (subchunk2Size, s) =>
  let h : Waveheader :=
    ⟨chunkID, chunkSize, format, subchunk1ID, subchunk1Size, audioFormat,
     numChannels, sampleRate, byteRate, blockAlign, bitsPerSample,
     subchunk2ID, subchunk2Size⟩
  let data := payloadBytes subchunk2Size s
  match validate h with
  | .error e => .error e
  | .ok _ => .ok ⟨h, data⟩

/-- The output stream handed to Save: a sink that accepts at most cap further
bytes (so a write beyond the capacity models an io error) and records the
bytes written so far. -/
structure OutStream where
  cap : Nat
  out : List Nat
  deriving DecidableEq

/-- One binary.Write call: appends the encoded bytes, or fails if the sink
cannot accept them. -/
def writeBytes (wr : OutStream) (bs : List Nat) : Except IOErr OutStream :=
  if bs.length ≤ wr.cap then .ok ⟨wr.cap - bs.length, wr.out ++ bs⟩
  else .error .ioError

/-- Serialization of a Go [4]byte field: the four bytes in order. -/
def bytes4 (q : Byte4) : List Nat := [q.1, q.2.1, q.2.2.1, q.2.2.2]

/-- Little-endian encoding of a value into n bytes, as binary.Write emits for
uint16 (n = 2) and uint32 (n = 4); values beyond n bytes are truncated exactly
as storage in the Go integer type truncates them. -/
def leBytes : Nat → Nat → List Nat
  | 0, _ => []
  | n + 1, v => v % 256 :: leBytes n (v / 256)

/-- Go method Wavefile.Save: the 13 header fields in source order and byte
order, then the raw Data bytes; each write error aborts immediately and is
returned as-is.  The Wavefile component of the result is the receiver after
the call (the Go method never assigns to it). -/
def Save (w : Wavefile) (wr : OutStream) : Except IOErr OutStream × Wavefile :=
  match writeBytes wr (bytes4 w.Header.ChunkID) with
  | .error e => (.error e, w)
  | .ok wr =>
  match writeBytes wr (leBytes 4 w.Header.ChunkSize) with
  | .error e => (.error e, w)
  | .ok wr =>
  match writeBytes wr (bytes4 w.Header.Format) with
  | .error e => (.error e, w)
  | .ok wr =>
  match writeBytes wr (bytes4 w.Header.Subchunk1ID) with
  | .error e => (.error e, w)
  | .ok wr =>
  match writeBytes wr (leBytes 4 w.Header.Subchunk1Size) with
  | .error e => (.error e, w)
  | .ok wr =>
  match writeBytes wr (leBytes 2 w.Header.AudioFormat) with
  | .error e => (.error e, w)
  | .ok wr =>
  match writeBytes wr (leBytes 2 w.Header.NumChannels) with
  | .error e => (.error e, w)
  | .ok wr =>
  match writeBytes wr (leBytes 4 w.Header.SampleRate) with
  | .error e => (.error e, w)
  | .ok wr =>
  match writeBytes wr (leBytes 4 w.Header.ByteRate) with
  | .error e => (.error e, w)
  | .ok wr =>
  match writeBytes wr (leBytes 2 w.Header.BlockAlign) with
  | .error e => (.error e, w)
  | .ok wr =>
  match writeBytes wr (leBytes 2 w.Header.BitsPerSample) with
  | .error e => (.error e, w)
  | .ok wr =>
  match writeBytes wr (bytes4 w.Header.Subchunk2ID) with
  | .error e => (.error e, w)
  | .ok wr =>
  match writeBytes wr (leBytes 4 w.Header.Subchunk2Size) with
  | .error e => (.error e, w)
  | .ok wr =>
  match writeBytes wr w.Data with
  | .error e => (.error e, w)
  | .ok wr => (.ok wr, w)

/-- Go method Wavefile.Init: overwrites the 13 header fields with the
canonical defaults.  The method does not touch Data. -/
def Init (w : Wavefile) : Wavefile :=
  { w with
    Header :=
      { ChunkID := (82, 73, 70, 70)
        ChunkSize := 36
        Format := (87, 65, 86, 69)
        Subchunk1ID := (102, 109, 116, 32)
        Subchunk1Size := 16
        AudioFormat := 1
        NumChannels := 1
        SampleRate := 44100
        ByteRate := 44100 * 2
        BlockAlign := 2
        BitsPerSample := 16
        Subchunk2ID := (100, 97, 116, 97)
        Subchunk2Size := 0 } }

/-- Go method Wavefile.GetBytes. -/
def GetBytes (w : Wavefile) : List Nat := w.Data

/-- Go method Wavefile.SetBytes: stores the new payload and sets
Subchunk2Size to uint32(len(b)), which truncates the length mod 2^32. -/
def SetBytes (w : Wavefile) (b : List Nat) : Wavefile :=
  { w with
    Data := b
    Header := { w.Header with Subchunk2Size := b.length % 4294967296 } }

/-- Go constant MIN_16_BIT. -/
def MIN_16_BIT : Int := -0x8000

/-- Go constant MID_16_BIT. -/
def MID_16_BIT : Int := 0

/-- Go constant MAX_16_BIT. -/
def MAX_16_BIT : Int := 0x7fff

/-- Two's-complement wraparound into the int16 range, the effect of Go int16
arithmetic overflowing. -/
def wrap16 (v : Int) : Int := (v + 32768) % 65536 - 32768

/-- Low byte of an int16 value, the effect of the Go conversion byte(v). -/
def byteOf (v : Int) : Nat := (v % 256).toNat

/-- Arithmetic right shift by 8 of an int16 value (Go v >> 8), which is floor
division by 256. -/
def sar8 (v : Int) : Int := Int.fdiv v 256

/-- Go func BytesToSigned16 of src/audiofile.go, parameters (high, low):
special-cases the pair (128, 0) to MIN_16_BIT, otherwise combines the low 7
bits of high with low and negates if bit 7 of high is set.  None of the int16
operations in the generic path can overflow, so plain Int arithmetic is
faithful. -/
def BytesToSigned16 (high low : Nat) : Int :=
  if high = 128 ∧ low = 0 then MIN_16_BIT
  else
    let highi16 : Int := (high &&& 127 : Nat)
    let highshifted : Int := highi16 * 256
    let out : Int := highshifted + (low : Nat)
    if (high &&& 128 : Nat) ≠ 0 then out * (-1) else out

/-- Go func Signed16ToBytes of src/audiofile.go, returning (high, low): for a
negative input takes the two's-complement negation (^in)+1, which wraps to
-32768 for input -32768, then splits into bytes and sets bit 7 of the high
byte. -/
def Signed16ToBytes (i : Int) : Nat × Nat :=
  if i < 0 then
    let j := wrap16 (-i)
    let low := byteOf j
    let high := byteOf (sar8 j) ||| 128
    (high, low)
  else
    (byteOf (sar8 i), byteOf i)

namespace Rev2

/-- Go func BytesToSigned16 of the later revision (part_002), parameters
(low, high); the body is identical to the primary revision. -/
def BytesToSigned16 (low high : Nat) : Int :=
  if high = 128 ∧ low = 0 then MIN_16_BIT
  else
    let highi16 : Int := (high &&& 127 : Nat)
    let highshifted : Int := highi16 * 256
    let out : Int := highshifted + (low : Nat)
    if (high &&& 128 : Nat) ≠ 0 then out * (-1) else out

/-- Go func Signed16ToBytes of the later revision (part_002), returning
(low, high), with the extra special case mapping -1 to the pair (0, 128). -/
def Signed16ToBytes (i : Int) : Nat × Nat :=
  if i = -1 then (0, 128)
  else if i < 0 then
    let j := wrap16 (-i)
    let low := byteOf j
    let high := byteOf (sar8 j) ||| 128
    (low, high)
  else
    (byteOf i, byteOf (sar8 i))

/-- Go func GetPCM of the later revision (part_002): allocates len/2 samples
and decodes out[i] from the byte pair (bytes[2i], bytes[2i+1]). -/
def GetPCM (w : Wavefile) : List Int :=
  (List.range ((GetBytes w).length / 2)).map fun i =>
    BytesToSigned16 ((GetBytes w).getD (2 * i) 0) ((GetBytes w).getD (2 * i + 1) 0)

end Rev2

/-- Byte image of the header exactly as the 13 header writes of Save emit it
(and as the 13 reads of Load consume it): each field in source order with its
declared byte order. -/
def serializeHeader (h : Waveheader) : List Nat :=
  bytes4 h.ChunkID ++ leBytes 4 h.ChunkSize ++ bytes4 h.Format ++
  bytes4 h.Subchunk1ID ++ leBytes 4 h.Subchunk1Size ++ leBytes 2 h.AudioFormat ++
  leBytes 2 h.NumChannels ++ leBytes 4 h.SampleRate ++ leBytes 4 h.ByteRate ++
  leBytes 2 h.BlockAlign ++ leBytes 2 h.BitsPerSample ++ bytes4 h.Subchunk2ID ++
  leBytes 4 h.Subchunk2Size

/-- Well-formedness of a [4]byte field value: each component is a byte. -/
def byte4OK (q : Byte4) : Prop :=
  q.1 < 256 ∧ q.2.1 < 256 ∧ q.2.2.1 < 256 ∧ q.2.2.2 < 256

/-- Well-formedness of a header value: every field fits its Go integer type,
so that the header is the image of an actual 44-byte header block. -/
def wfHeader (h : Waveheader) : Prop :=
  byte4OK h.ChunkID ∧ h.ChunkSize < 4294967296 ∧ byte4OK h.Format ∧
  byte4OK h.Subchunk1ID ∧ h.Subchunk1Size < 4294967296 ∧
  h.AudioFormat < 65536 ∧ h.NumChannels < 65536 ∧ h.SampleRate < 4294967296 ∧
  h.ByteRate < 4294967296 ∧ h.BlockAlign < 65536 ∧ h.BitsPerSample < 65536 ∧
  byte4OK h.Subchunk2ID ∧ h.Subchunk2Size < 4294967296

/-- The four magic fields hold their required values, so validate succeeds. -/
def magicsOK (h : Waveheader) : Prop :=
  h.ChunkID = (82, 73, 70, 70) ∧ h.Format = (87, 65, 86, 69) ∧
  h.Subchunk1ID = (102, 109, 116, 32) ∧ h.Subchunk2ID = (100, 97, 116, 97)

theorem validate_of_magicsOK {h : Waveheader} (hm : magicsOK h) :
    validate h = .ok () := by
  obtain ⟨h1, h2, h3, h4⟩ := hm
  simp [validate, h1, h2, h3, h4]

theorem validate_of_not_magicsOK {h : Waveheader} (hnm : ¬ magicsOK h) :
    validate h = .error .BadFile := by
  unfold validate
  split
  · rfl
  next hc1 =>
    split
    · rfl
    next hc2 =>
      split
      · rfl
      next hc3 =>
        split
        · rfl
        next hc4 =>
          exact absurd ⟨not_not.mp hc1, not_not.mp hc2,
            not_not.mp hc3, not_not.mp hc4⟩ hnm

theorem leBytes_length (n v : Nat) : (leBytes n v).length = n := by
  induction n generalizing v with
  | zero => rfl
  | succ k ih => simp [leBytes, ih]

theorem leBytes4_eq (v : Nat) :
    leBytes 4 v = [v % 256, v / 256 % 256, v / 256 / 256 % 256,
      v / 256 / 256 / 256 % 256] := rfl

theorem leBytes2_eq (v : Nat) : leBytes 2 v = [v % 256, v / 256 % 256] := rfl

theorem serializeHeader_length (h : Waveheader) :
    (serializeHeader h).length = 44 := by
  simp [serializeHeader, bytes4, leBytes_length]

theorem payloadBytes_length (n : Nat) (s : List Nat) :
    (payloadBytes n s).length = n := by
  unfold payloadBytes readN
  by_cases hc : n ≤ s.length
  · simp [hc]
  · simp [hc]

theorem payloadBytes_exact (s : List Nat) : payloadBytes s.length s = s := by
  unfold payloadBytes readN
  simp

theorem payloadBytes_short {n : Nat} {s : List Nat} (hs : s.length < n) :
    payloadBytes n s = List.replicate n 0 := by
  unfold payloadBytes readN
  simp [Nat.not_le.mpr hs]

theorem payloadBytes_nil (n : Nat) : payloadBytes n [] = List.replicate n 0 := by
  cases n with
  | zero => rfl
  | succ k => exact payloadBytes_short (by simp)

theorem load_serialize (h : Waveheader) (rest : List Nat) (hwf : wfHeader h) :
    Load (serializeHeader h ++ rest) =
      match validate h with
      | .error e => .error e
      | .ok _ => .ok ⟨h, payloadBytes h.Subchunk2Size rest⟩ := by
  obtain ⟨⟨c0, c1, c2, c3⟩, cs, ⟨f0, f1, f2, f3⟩, ⟨g0, g1, g2, g3⟩, s1s, af, nc,
    sr, br, ba, bps, ⟨d0, d1, d2, d3⟩, s2s⟩ := h
  obtain ⟨-, hcs, -, -, hs1s, haf, hnc, hsr, hbr, hba, hbps, -, hs2s⟩ := hwf
  dsimp only at hcs hs1s haf hnc hsr hbr hba hbps hs2s
  simp only [serializeHeader, bytes4, leBytes4_eq, leBytes2_eq,
    List.cons_append, List.nil_append, List.append_assoc]
  simp only [Load, read4, readU16, readU32]
  have e1 : cs % 256 + 256 * (cs / 256 % 256) + 65536 * (cs / 256 / 256 % 256) +
      16777216 * (cs / 256 / 256 / 256 % 256) = cs := by omega
  have e2 : s1s % 256 + 256 * (s1s / 256 % 256) + 65536 * (s1s / 256 / 256 % 256) +
      16777216 * (s1s / 256 / 256 / 256 % 256) = s1s := by omega
  have e3 : af % 256 + 256 * (af / 256 % 256) = af := by omega
  have e4 : nc % 256 + 256 * (nc / 256 % 256) = nc := by omega
  have e5 : sr % 256 + 256 * (sr / 256 % 256) + 65536 * (sr / 256 / 256 % 256) +
      16777216 * (sr / 256 / 256 / 256 % 256) = sr := by omega
  have e6 : br % 256 + 256 * (br / 256 % 256) + 65536 * (br / 256 / 256 % 256) +
      16777216 * (br / 256 / 256 / 256 % 256) = br := by omega
  have e7 : ba % 256 + 256 * (ba / 256 % 256) = ba := by omega
  have e8 : bps % 256 + 256 * (bps / 256 % 256) = bps := by omega
  have e9 : s2s % 256 + 256 * (s2s / 256 % 256) + 65536 * (s2s / 256 / 256 % 256) +
      16777216 * (s2s / 256 / 256 / 256 % 256) = s2s := by omega
  rw [e1, e2, e3, e4, e5, e6, e7, e8, e9]

theorem load_serialize_ok {h : Waveheader} (rest : List Nat) (hwf : wfHeader h)
    (hm : magicsOK h) :
    Load (serializeHeader h ++ rest) =
      .ok ⟨h, payloadBytes h.Subchunk2Size rest⟩ := by
  rw [load_serialize h rest hwf, validate_of_magicsOK hm]

theorem load_serialize_err {h : Waveheader} (rest : List Nat) (hwf : wfHeader h)
    (hnm : ¬ magicsOK h) :
    Load (serializeHeader h ++ rest) = .error .BadFile := by
  rw [load_serialize h rest hwf, validate_of_not_magicsOK hnm]

theorem save_snd (w : Wavefile) (wr : OutStream) : (Save w wr).2 = w := by
  unfold Save
  repeat' split
  all_goals rfl

theorem save_ok (w : Wavefile) (wr : OutStream)
    (hcap : 44 + w.Data.length ≤ wr.cap) :
    Save w wr =
      (.ok ⟨wr.cap - (44 + w.Data.length),
            wr.out ++ (serializeHeader w.Header ++ w.Data)⟩, w) := by
  obtain ⟨cap, out⟩ := wr
  dsimp only at hcap
  unfold Save writeBytes
  simp only [bytes4, leBytes_length, List.length_cons, List.length_nil]
  rw [if_pos (by omega)]
  dsimp only
  rw [if_pos (by omega)]
  dsimp only
  rw [if_pos (by omega)]
  dsimp only
  rw [if_pos (by omega)]
  dsimp only
  rw [if_pos (by omega)]
  dsimp only
  rw [if_pos (by omega)]
  dsimp only
  rw [if_pos (by omega)]
  dsimp only
  rw [if_pos (by omega)]
  dsimp only
  rw [if_pos (by omega)]
  dsimp only
  rw [if_pos (by omega)]
  dsimp only
  rw [if_pos (by omega)]
  dsimp only
  rw [if_pos (by omega)]
  dsimp only
  rw [if_pos (by omega)]
  dsimp only
  rw [if_pos (by omega)]
  dsimp only
  simp only [serializeHeader, bytes4, List.append_assoc, List.cons_append,
    List.nil_append, Prod.mk.injEq, Except.ok.injEq, OutStream.mk.injEq]
  exact ⟨⟨by omega, by trivial⟩, by trivial⟩

theorem read4_some {s : List Nat} {p : Byte4 × List Nat} (h : read4 s = some p) :
    s.length = p.2.length + 4 := by
  unfold read4 at h
  split at h
  · cases h; simp
  · exact Option.noConfusion h

theorem readU16_some {s : List Nat} {p : Nat × List Nat} (h : readU16 s = some p) :
    s.length = p.2.length + 2 := by
  unfold readU16 at h
  split at h
  · cases h; simp
  · exact Option.noConfusion h

theorem readU32_some {s : List Nat} {p : Nat × List Nat} (h : readU32 s = some p) :
    s.length = p.2.length + 4 := by
  unfold readU32 at h
  split at h
  · cases h; simp
  · exact Option.noConfusion h

/-- Unfolding of Load through its 13 field reads: on any stream shorter than
the 44 header bytes some field read fails, and every failure branch returns
the BadFile error. -/
theorem load_short (s : List Nat) (hlen : s.length < 44) :
    Load s = .error .BadFile := by
  unfold Load
  cases h1 : read4 s with
  | none => rfl
  | some p1 =>
  have l1 := read4_some h1
  obtain ⟨v1, s1⟩ := p1
  dsimp only
  cases h2 : readU32 s1 with
  | none => rfl
  | some p2 =>
  have l2 := readU32_some h2
  obtain ⟨v2, s2⟩ := p2
  dsimp only
  cases h3 : read4 s2 with
  | none => rfl
  | some p3 =>
  have l3 := read4_some h3
  obtain ⟨v3, s3⟩ := p3
  dsimp only
  cases h4 : read4 s3 with
  | none => rfl
  | some p4 =>
  have l4 := read4_some h4
  obtain ⟨v4, s4⟩ := p4
  dsimp only
  cases h5 : readU32 s4 with
  | none => rfl
  | some p5 =>
  have l5 := readU32_some h5
  obtain ⟨v5, s5⟩ := p5
  dsimp only
  cases h6 : readU16 s5 with
  | none => rfl
  | some p6 =>
  have l6 := readU16_some h6
  obtain ⟨v6, s6⟩ := p6
  dsimp only
  cases h7 : readU16 s6 with
  | none => rfl
  | some p7 =>
  have l7 := readU16_some h7
  obtain ⟨v7, s7⟩ := p7
  dsimp only
  cases h8 : readU32 s7 with
  | none => rfl
  | some p8 =>
  have l8 := readU32_some h8
  obtain ⟨v8, s8⟩ := p8
  dsimp only
  cases h9 : readU32 s8 with
  | none => rfl
  | some p9 =>
  have l9 := readU32_some h9
  obtain ⟨v9, s9⟩ := p9
  dsimp only
  cases h10 : readU16 s9 with
  | none => rfl
  | some p10 =>
  have l10 := readU16_some h10
  obtain ⟨v10, s10⟩ := p10
  dsimp only
  cases h11 : readU16 s10 with
  | none => rfl
  | some p11 =>
  have l11 := readU16_some h11
  obtain ⟨v11, s11⟩ := p11
  dsimp only
  cases h12 : read4 s11 with
  | none => rfl
  | some p12 =>
  have l12 := read4_some h12
  obtain ⟨v12, s12⟩ := p12
  dsimp only
  cases h13 : readU32 s12 with
  | none => rfl
  | some p13 =>
  have l13 := readU32_some h13
  obtain ⟨v13, s13⟩ := p13
  dsimp only
  dsimp only at l1 l2 l3 l4 l5 l6 l7 l8 l9 l10 l11 l12 l13
  omega

/-- Any successfully loaded Wavefile has Subchunk2Size equal to the length of
its Data buffer: the buffer is allocated with exactly that size and keeps it
whether or not the payload read succeeds. -/
theorem load_ok_size {s : List Nat} {wf : Wavefile} (h : Load s = .ok wf) :
    wf.Header.Subchunk2Size = wf.Data.length := by
  unfold Load at h
  repeat' split at h
  any_goals exact Except.noConfusion h
  dsimp only at h
  split at h
  any_goals exact Except.noConfusion h
  injection h with h
  subst h
  dsimp only
  rw [payloadBytes_length]

set_option maxRecDepth 4096 in
theorem land127_lt : ∀ n : Nat, n < 256 → n &&& 127 = n % 128 := by decide

set_option maxRecDepth 4096 in
theorem land128_lt : ∀ n : Nat, n < 256 → n &&& 128 = 128 * (n / 128) := by decide

set_option maxRecDepth 4096 in
theorem lor128_lt : ∀ n : Nat, n < 128 → n ||| 128 = n + 128 := by decide

theorem sar8_eq (v : Int) : sar8 v = v / 256 :=
  Int.fdiv_eq_ediv v (by norm_num)

/-- Round trip of the src/audiofile.go sample codec: decoding the pair
produced by Signed16ToBytes recovers every int16 value, including -1 and
-32768. -/
theorem roundtrip_main (i : Int) (h1 : -32768 ≤ i) (h2 : i < 32768) :
    BytesToSigned16 (Signed16ToBytes i).1 (Signed16ToBytes i).2 = i := by
  rcases eq_or_ne i (-32768) with hmin | hmin
  · subst hmin; decide
  by_cases hneg : i < 0
  · have hj : wrap16 (-i) = -i := by unfold wrap16; omega
    have hlo : byteOf (-i) = (-i % 256).toNat := rfl
    have hhi : byteOf (sar8 (-i)) = (-i / 256 % 256).toNat := by
      rw [byteOf, sar8_eq]
    have hhi_lt : (-i / 256 % 256).toNat < 128 := by omega
    simp only [Signed16ToBytes, if_pos hneg, hj, hlo, hhi]
    rw [lor128_lt _ hhi_lt]
    have hne : ¬ ((-i / 256 % 256).toNat + 128 = 128 ∧ (-i % 256).toNat = 0) := by
      rintro ⟨ha, hb⟩; omega
    simp only [BytesToSigned16, if_neg hne]
    have hland : ((-i / 256 % 256).toNat + 128) &&& 127 = ((-i / 256 % 256).toNat + 128) % 128 :=
      land127_lt _ (by omega)
    have hsign : ((-i / 256 % 256).toNat + 128) &&& 128 =
        128 * (((-i / 256 % 256).toNat + 128) / 128) := land128_lt _ (by omega)
    rw [hland, hsign]
    have : 128 * (((-i / 256 % 256).toNat + 128) / 128) ≠ 0 := by omega
    simp only [if_pos this]
    push_cast
    omega
  · push_neg at hneg
    have hhi : byteOf (sar8 i) = (i / 256 % 256).toNat := by rw [byteOf, sar8_eq]
    have hlo : byteOf i = (i % 256).toNat := rfl
    simp only [Signed16ToBytes, if_neg (Int.not_lt.mpr hneg), hhi, hlo]
    have hne : ¬ ((i / 256 % 256).toNat = 128 ∧ (i % 256).toNat = 0) := by
      rintro ⟨ha, hb⟩; omega
    simp only [BytesToSigned16, if_neg hne]
    have hland : (i / 256 % 256).toNat &&& 127 = (i / 256 % 256).toNat % 128 :=
      land127_lt _ (by omega)
    have hsign : (i / 256 % 256).toNat &&& 128 =
        128 * ((i / 256 % 256).toNat / 128) := land128_lt _ (by omega)
    rw [hland, hsign]
    have : 128 * ((i / 256 % 256).toNat / 128) = 0 := by omega
    simp only [this, ne_eq, not_true_eq_false, if_false, ite_false]
    push_cast
    omega

theorem rev2_b2s_eq (lo hi : Nat) :
    Rev2.BytesToSigned16 lo hi = BytesToSigned16 hi lo := rfl

theorem rev2_s2b_swap (i : Int) (hne : i ≠ -1) :
    Rev2.Signed16ToBytes i = ((Signed16ToBytes i).2, (Signed16ToBytes i).1) := by
  unfold Rev2.Signed16ToBytes Signed16ToBytes
  rw [if_neg hne]
  by_cases h : i < 0
  · simp only [if_pos h]
  · simp only [if_neg h]

/-- Round trip of the part_002 sample codec for every int16 value other than
-1, whose encoding special case collides with the minimum value. -/
theorem roundtrip_rev2 (i : Int) (h1 : -32768 ≤ i) (h2 : i < 32768)
    (hne : i ≠ -1) :
    Rev2.BytesToSigned16 (Rev2.Signed16ToBytes i).1 (Rev2.Signed16ToBytes i).2 = i := by
  rw [rev2_s2b_swap i hne]
  dsimp only
  rw [rev2_b2s_eq]
  exact roundtrip_main i h1 h2

/-- Modelled from the spec (section 4.5): decoding a payload by grouping it
two bytes at a time in order and dropping a final unpaired byte.  Used as the
comparison target for the indexing loop of GetPCM. -/
def pcmPairsSpec : List Nat → List Int
  | a :: b :: rest => Rev2.BytesToSigned16 a b :: pcmPairsSpec rest
  | _ => []

theorem getPCM_loop_eq : ∀ l : List Nat,
    (List.range (l.length / 2)).map
      (fun i => Rev2.BytesToSigned16 (l.getD (2 * i) 0) (l.getD (2 * i + 1) 0)) =
    pcmPairsSpec l
  | [] => by simp [pcmPairsSpec]
  | [a] => by simp [pcmPairsSpec]
  | a :: b :: t => by
    have ih := getPCM_loop_eq t
    have hlen : (a :: b :: t).length / 2 = t.length / 2 + 1 := by
      simp only [List.length_cons]; omega
    rw [hlen, List.range_succ_eq_map, List.map_cons, List.map_map]
    have hhead : Rev2.BytesToSigned16 ((a :: b :: t).getD (2 * 0) 0)
        ((a :: b :: t).getD (2 * 0 + 1) 0) = Rev2.BytesToSigned16 a b := rfl
    have htail : ∀ i : Nat,
        Rev2.BytesToSigned16 ((a :: b :: t).getD (2 * (i + 1)) 0)
          ((a :: b :: t).getD (2 * (i + 1) + 1) 0) =
        Rev2.BytesToSigned16 (t.getD (2 * i) 0) (t.getD (2 * i + 1) 0) := by
      intro i
      have e1 : 2 * (i + 1) = 2 * i + 1 + 1 := by omega
      rw [e1]
      simp [List.getD_cons_succ]
    rw [hhead]
    show Rev2.BytesToSigned16 a b ::
        (List.range (t.length / 2)).map
          (fun i => Rev2.BytesToSigned16 ((a :: b :: t).getD (2 * (i + 1)) 0)
            ((a :: b :: t).getD (2 * (i + 1) + 1) 0)) = pcmPairsSpec (a :: b :: t)
    rw [List.map_congr_left (fun i _ => htail i), ih]
    rfl

/-- Modelled from the spec (section 3): the canonical default header values
that Init must produce. -/
def canonicalHeaderSpec : Waveheader :=
  ⟨(82, 73, 70, 70), 36, (87, 65, 86, 69), (102, 109, 116, 32), 16, 1, 1,
   44100, 88200, 2, 16, (100, 97, 116, 97), 0⟩

/-- Exactly one of the four magic fields differs from its required value. -/
def exactlyOneBadMagic (h : Waveheader) : Prop :=
  (h.ChunkID ≠ (82, 73, 70, 70) ∧ h.Format = (87, 65, 86, 69) ∧
    h.Subchunk1ID = (102, 109, 116, 32) ∧ h.Subchunk2ID = (100, 97, 116, 97)) ∨
  (h.ChunkID = (82, 73, 70, 70) ∧ h.Format ≠ (87, 65, 86, 69) ∧
    h.Subchunk1ID = (102, 109, 116, 32) ∧ h.Subchunk2ID = (100, 97, 116, 97)) ∨
  (h.ChunkID = (82, 73, 70, 70) ∧ h.Format = (87, 65, 86, 69) ∧
    h.Subchunk1ID ≠ (102, 109, 116, 32) ∧ h.Subchunk2ID = (100, 97, 116, 97)) ∨
  (h.ChunkID = (82, 73, 70, 70) ∧ h.Format = (87, 65, 86, 69) ∧
    h.Subchunk1ID = (102, 109, 116, 32) ∧ h.Subchunk2ID ≠ (100, 97, 116, 97))

/-- C1: for every byte stream made of a 44-byte header whose four magic
fields are RIFF, WAVE, fmt-space and data, followed by exactly Subchunk2Size
payload bytes, Load succeeds and returns exactly the header fields and
payload, and a subsequent Save writes back exactly the input bytes. -/
theorem c1_load_save_roundtrip (h : Waveheader) (payload : List Nat)
    (hwf : wfHeader h) (hm : magicsOK h)
    (hlen : h.Subchunk2Size = payload.length)
    (_hbytes : ∀ b ∈ payload, b < 256) :
    Load (serializeHeader h ++ payload) = .ok ⟨h, payload⟩ ∧
    Save ⟨h, payload⟩ ⟨(serializeHeader h ++ payload).length, []⟩ =
      (.ok ⟨0, serializeHeader h ++ payload⟩, ⟨h, payload⟩) := by
  constructor
  · rw [load_serialize_ok payload hwf hm, hlen, payloadBytes_exact]
  · have hcap : 44 + (Wavefile.mk h payload).Data.length ≤
        (serializeHeader h ++ payload).length := by
      simp [List.length_append, serializeHeader_length]
    rw [save_ok _ _ hcap]
    simp [serializeHeader_length, List.length_append]

/-- C1 witness: the canonical 44-byte header with empty payload round-trips. -/
theorem c1_load_save_roundtrip_witness :
    Load (serializeHeader canonicalHeaderSpec ++ []) =
      .ok ⟨canonicalHeaderSpec, []⟩ ∧
    Save ⟨canonicalHeaderSpec, []⟩
        ⟨(serializeHeader canonicalHeaderSpec ++ []).length, []⟩ =
      (.ok ⟨0, serializeHeader canonicalHeaderSpec ++ []⟩,
        ⟨canonicalHeaderSpec, []⟩) :=
  c1_load_save_roundtrip canonicalHeaderSpec []
    (by unfold wfHeader byte4OK canonicalHeaderSpec; decide)
    (by unfold magicsOK canonicalHeaderSpec; decide)
    (by decide) (by decide)

/-- C2 counterexample: in the part_002 revision, the value -1 does not round
trip: Signed16ToBytes maps it to the pair (0, 128), which BytesToSigned16
decodes to -32768. -/
theorem c2_sample_roundtrip_counterexample :
    Rev2.BytesToSigned16 (Rev2.Signed16ToBytes (-1)).1
        (Rev2.Signed16ToBytes (-1)).2 = -32768 ∧
    Rev2.BytesToSigned16 (Rev2.Signed16ToBytes (-1)).1
        (Rev2.Signed16ToBytes (-1)).2 ≠ -1 := by
  decide

/-- C2 amended: the src/audiofile.go pair BytesToSigned16 / Signed16ToBytes
round-trips every int16 value, including -1 and -32768; the part_002 revision
round-trips every int16 value except -1, whose encoding special case collides
with the pair that decodes to the minimum value. -/
theorem c2_sample_roundtrip :
    (∀ i : Int, -32768 ≤ i → i < 32768 →
      BytesToSigned16 (Signed16ToBytes i).1 (Signed16ToBytes i).2 = i) ∧
    (∀ i : Int, -32768 ≤ i → i < 32768 → i ≠ -1 →
      Rev2.BytesToSigned16 (Rev2.Signed16ToBytes i).1
        (Rev2.Signed16ToBytes i).2 = i) :=
  ⟨roundtrip_main, roundtrip_rev2⟩

/-- C2 witness: the round trip evaluated at -1, -32768 and -2. -/
theorem c2_sample_roundtrip_witness :
    BytesToSigned16 (Signed16ToBytes (-1)).1 (Signed16ToBytes (-1)).2 = -1 ∧
    BytesToSigned16 (Signed16ToBytes (-32768)).1
      (Signed16ToBytes (-32768)).2 = -32768 ∧
    Rev2.BytesToSigned16 (Rev2.Signed16ToBytes (-2)).1
      (Rev2.Signed16ToBytes (-2)).2 = -2 :=
  ⟨c2_sample_roundtrip.1 (-1) (by decide) (by decide),
   c2_sample_roundtrip.1 (-32768) (by decide) (by decide),
   c2_sample_roundtrip.2 (-2) (by decide) (by decide) (by decide)⟩

/-- C3 counterexample: the byte pair (0xFF, 0xFF), the two's-complement
encoding of -1, decodes to -32767, not -1 (the decoder is sign-magnitude,
not two's complement; both revisions agree since the two arguments are
equal). -/
theorem c3_decode_counterexample :
    BytesToSigned16 255 255 = -32767 ∧ BytesToSigned16 255 255 ≠ -1 := by
  decide

/-- C3 amended: the first four decode equations hold as stated; the byte pair
decoding to -1 is the sign-magnitude pair with sign byte 0x80 and low byte
0x01, not the two's-complement pair (0xFF, 0xFF). -/
theorem c3_decode_equations :
    BytesToSigned16 0 0 = 0 ∧ BytesToSigned16 127 255 = 32767 ∧
    BytesToSigned16 128 0 = -32768 ∧ BytesToSigned16 0 1 = 1 ∧
    BytesToSigned16 128 1 = -1 := by
  decide

/-- C4: corrupting exactly one of the four magic fields of an otherwise
well-formed 44-byte header makes Load fail with BadFile, while any header
whose four magics are correct loads successfully whatever its other fields
hold. -/
theorem c4_magic_validation :
    (∀ h : Waveheader, wfHeader h → exactlyOneBadMagic h →
      Load (serializeHeader h) = .error .BadFile) ∧
    (∀ h : Waveheader, wfHeader h → magicsOK h →
      Load (serializeHeader h) = .ok ⟨h, List.replicate h.Subchunk2Size 0⟩) := by
  constructor
  · intro h hwf hbad
    have hnm : ¬ magicsOK h := by
      rcases hbad with ⟨hb, -, -, -⟩ | ⟨-, hb, -, -⟩ | ⟨-, -, hb, -⟩ | ⟨-, -, -, hb⟩
      · exact fun hm => hb hm.1
      · exact fun hm => hb hm.2.1
      · exact fun hm => hb hm.2.2.1
      · exact fun hm => hb hm.2.2.2
    have := load_serialize_err [] hwf hnm
    rwa [List.append_nil] at this
  · intro h hwf hm
    have := load_serialize_ok [] hwf hm
    rwa [List.append_nil, payloadBytes_nil] at this

/-- C4 witness: a canonical header with its ChunkID corrupted is rejected,
and the canonical header itself is accepted. -/
theorem c4_magic_validation_witness :
    Load (serializeHeader ⟨(0, 73, 70, 70), 36, (87, 65, 86, 69),
        (102, 109, 116, 32), 16, 1, 1, 44100, 88200, 2, 16,
        (100, 97, 116, 97), 0⟩) = .error .BadFile ∧
    Load (serializeHeader canonicalHeaderSpec) =
      .ok ⟨canonicalHeaderSpec, List.replicate canonicalHeaderSpec.Subchunk2Size 0⟩ :=
  ⟨c4_magic_validation.1 _
      (by unfold wfHeader byte4OK; decide)
      (by unfold exactlyOneBadMagic; left; exact ⟨by decide, rfl, rfl, rfl⟩),
   c4_magic_validation.2 _
      (by unfold wfHeader byte4OK canonicalHeaderSpec; decide)
      (by unfold magicsOK canonicalHeaderSpec; decide)⟩

/-- C5: a stream carrying a well-formed header with valid magics and fewer
payload bytes than Subchunk2Size still loads successfully; the resulting Data
buffer is the all-zero buffer of length Subchunk2Size (so in particular the
unread tail is zero) and the payload read error is discarded. -/
theorem c5_short_payload_tolerated (h : Waveheader) (payload : List Nat)
    (hwf : wfHeader h) (hm : magicsOK h)
    (hshort : payload.length < h.Subchunk2Size) :
    Load (serializeHeader h ++ payload) =
      .ok ⟨h, List.replicate h.Subchunk2Size 0⟩ ∧
    (List.replicate h.Subchunk2Size (0 : Nat)).length = h.Subchunk2Size := by
  refine ⟨?_, by simp⟩
  rw [load_serialize_ok payload hwf hm, payloadBytes_short hshort]

/-- C5 witness: a canonical header declaring 4 payload bytes followed by only
2 bytes loads successfully with a 4-byte zero buffer. -/
theorem c5_short_payload_tolerated_witness :
    Load (serializeHeader ⟨(82, 73, 70, 70), 36, (87, 65, 86, 69),
        (102, 109, 116, 32), 16, 1, 1, 44100, 88200, 2, 16,
        (100, 97, 116, 97), 4⟩ ++ [7, 8]) =
      .ok ⟨⟨(82, 73, 70, 70), 36, (87, 65, 86, 69), (102, 109, 116, 32), 16,
        1, 1, 44100, 88200, 2, 16, (100, 97, 116, 97), 4⟩,
        List.replicate 4 0⟩ ∧
    (List.replicate 4 (0 : Nat)).length = 4 :=
  c5_short_payload_tolerated _ [7, 8]
    (by unfold wfHeader byte4OK; decide)
    (by unfold magicsOK; decide)
    (by decide)

/-- C6 counterexample: Save succeeds on a Wavefile whose Subchunk2Size is 5
while its Data is empty, and the Wavefile after the successful Save still
violates Subchunk2Size == len(Data): Save does not establish the invariant. -/
theorem c6_size_invariant_counterexample :
    (Save ⟨⟨(82, 73, 70, 70), 36, (87, 65, 86, 69), (102, 109, 116, 32), 16,
        1, 1, 44100, 88200, 2, 16, (100, 97, 116, 97), 5⟩, []⟩
      ⟨100, []⟩).1 =
      .ok ⟨56, serializeHeader ⟨(82, 73, 70, 70), 36, (87, 65, 86, 69),
        (102, 109, 116, 32), 16, 1, 1, 44100, 88200, 2, 16,
        (100, 97, 116, 97), 5⟩⟩ ∧
    (Save ⟨⟨(82, 73, 70, 70), 36, (87, 65, 86, 69), (102, 109, 116, 32), 16,
        1, 1, 44100, 88200, 2, 16, (100, 97, 116, 97), 5⟩, []⟩
      ⟨100, []⟩).2.Header.Subchunk2Size ≠
    (Save ⟨⟨(82, 73, 70, 70), 36, (87, 65, 86, 69), (102, 109, 116, 32), 16,
        1, 1, 44100, 88200, 2, 16, (100, 97, 116, 97), 5⟩, []⟩
      ⟨100, []⟩).2.Data.length := by
  decide

/-- C6 amended: after any successful Load the invariant Subchunk2Size ==
len(Data) holds; SetBytes sets Subchunk2Size to len(b) mod 2^32, so the
invariant holds after SetBytes for every payload shorter than 2^32 bytes
(in particular for lengths 0, odd and even); Save leaves the Wavefile
unchanged, so it preserves the invariant but does not establish it. -/
theorem c6_size_invariant :
    (∀ (s : List Nat) (wf : Wavefile), Load s = .ok wf →
      wf.Header.Subchunk2Size = wf.Data.length) ∧
    (∀ (w : Wavefile) (b : List Nat), b.length < 4294967296 →
      (SetBytes w b).Header.Subchunk2Size = (SetBytes w b).Data.length) ∧
    (∀ (w : Wavefile) (wr : OutStream),
      w.Header.Subchunk2Size = w.Data.length →
      (Save w wr).2.Header.Subchunk2Size = (Save w wr).2.Data.length) := by
  refine ⟨fun s wf h => load_ok_size h, fun w b hb => ?_, fun w wr hw => ?_⟩
  · show b.length % 4294967296 = b.length
    omega
  · rw [save_snd]
    exact hw

/-- C6 witness: the three invariant statements applied at concrete inputs. -/
theorem c6_size_invariant_witness :
    (Wavefile.mk canonicalHeaderSpec []).Header.Subchunk2Size =
      (Wavefile.mk canonicalHeaderSpec []).Data.length ∧
    (SetBytes ⟨canonicalHeaderSpec, []⟩ [1, 2, 3]).Header.Subchunk2Size =
      (SetBytes ⟨canonicalHeaderSpec, []⟩ [1, 2, 3]).Data.length ∧
    (Save ⟨canonicalHeaderSpec, []⟩ ⟨10, []⟩).2.Header.Subchunk2Size =
      (Save ⟨canonicalHeaderSpec, []⟩ ⟨10, []⟩).2.Data.length :=
  ⟨c6_size_invariant.1 (serializeHeader canonicalHeaderSpec)
      ⟨canonicalHeaderSpec, []⟩ (by decide),
   c6_size_invariant.2.1 ⟨canonicalHeaderSpec, []⟩ [1, 2, 3] (by decide),
   c6_size_invariant.2.2 ⟨canonicalHeaderSpec, []⟩ ⟨10, []⟩ (by decide)⟩

/-- C7: every stream shorter than the 44 header bytes (so some of the 13
field reads cannot complete) makes Load fail with the single BadFile error,
whichever field position the failure occurs at. -/
theorem c7_truncated_header (s : List Nat) (hlen : s.length < 44) :
    Load s = .error .BadFile :=
  load_short s hlen

/-- C7 witness: the empty stream fails on the very first field read. -/
theorem c7_truncated_header_witness : Load [] = .error .BadFile :=
  c7_truncated_header [] (by decide)

/-- C8 counterexample: Init does not clear the payload; a Wavefile whose Data
holds one byte keeps it across Init. -/
theorem c8_init_counterexample :
    (Init ⟨canonicalHeaderSpec, [1]⟩).Data ≠ [] := by
  decide

/-- C8 amended: Init deterministically overwrites the header with exactly the
canonical defaults and the resulting header passes validation, but Init
leaves the payload Data unchanged rather than clearing it. -/
theorem c8_init_defaults (w : Wavefile) :
    (Init w).Header = canonicalHeaderSpec ∧ (Init w).Data = w.Data ∧
    validate (Init w).Header = .ok () :=
  ⟨rfl, rfl, rfl⟩

/-- C9: GetPCM (part_002) returns exactly len(Data) / 2 samples, obtained by
decoding consecutive byte pairs in order; a trailing unpaired byte of an
odd-length payload is dropped. -/
theorem c9_getpcm_pairs (w : Wavefile) :
    (Rev2.GetPCM w).length = w.Data.length / 2 ∧
    Rev2.GetPCM w = pcmPairsSpec w.Data := by
  constructor
  · simp [Rev2.GetPCM, GetBytes]
  · unfold Rev2.GetPCM GetBytes
    exact getPCM_loop_eq w.Data

/-- C10: Save never mutates the Wavefile it is called on, whether it returns
success or an error from any of its 14 writes. -/
theorem c10_save_frame (w : Wavefile) (wr : OutStream) : (Save w wr).2 = w :=
  save_snd w wr

/-- C8 witness: Init applied to a Wavefile holding one payload byte. -/
theorem c8_init_defaults_witness :
    (Init ⟨canonicalHeaderSpec, [9]⟩).Header = canonicalHeaderSpec ∧
    (Init ⟨canonicalHeaderSpec, [9]⟩).Data = (Wavefile.mk canonicalHeaderSpec [9]).Data ∧
    validate (Init ⟨canonicalHeaderSpec, [9]⟩).Header = .ok () :=
  c8_init_defaults ⟨canonicalHeaderSpec, [9]⟩

/-- C9 witness: GetPCM on a 3-byte payload returns one sample and drops the
trailing byte. -/
theorem c9_getpcm_pairs_witness :
    (Rev2.GetPCM ⟨canonicalHeaderSpec, [1, 0, 9]⟩).length =
      (Wavefile.mk canonicalHeaderSpec [1, 0, 9]).Data.length / 2 ∧
    Rev2.GetPCM ⟨canonicalHeaderSpec, [1, 0, 9]⟩ =
      pcmPairsSpec (Wavefile.mk canonicalHeaderSpec [1, 0, 9]).Data :=
  c9_getpcm_pairs ⟨canonicalHeaderSpec, [1, 0, 9]⟩

/-- C10 witness: a zero-capacity sink makes the very first write fail, and
the Wavefile is returned unchanged. -/
theorem c10_save_frame_witness :
    (Save ⟨canonicalHeaderSpec, []⟩ ⟨0, []⟩).2 = ⟨canonicalHeaderSpec, []⟩ :=
  c10_save_frame ⟨canonicalHeaderSpec, []⟩ ⟨0, []⟩
